import Mathlib

/-!
Verification of the two CSV command-line tools in this repository:
`validate_products_csv.py` (Row Validator) and `add_missing_columns.py`
(Column Enricher).  Both scripts parse a CSV file with Python's
`csv.DictReader`, whose semantics we embed faithfully:

* A parsed CSV is a header (list of column names) plus a list of data
  rows, each row being a list of cell strings (`DictReader` skips fully
  blank lines, so the rows here are the records the reader yields).
* `DictReader` turns a row into a dict mapping each header name to the
  cell at the LAST index of that name in the header (later duplicates
  overwrite earlier ones in `dict(zip(...))`), and maps header names
  beyond the row's length to the Python value `None` (the default
  `restval`).  A row longer than the header additionally stores the
  extra cells under the `restkey` key `None`.
* Python `str(None)` is the four-character string `None`; `str.strip`
  and `str.lower` are embedded as `pyStrip` and `pyLower` below (at the
  ASCII whitespace and case range).
* `print(...)` writes to standard output; `raise SystemExit(msg)`
  writes `msg` to standard error and exits with status 1; an uncaught
  exception prints a traceback on standard error and exits non-zero.
-/

/-- Output channel of a printed line: standard output or standard error. -/
inductive Chan where
  | out
  | err
deriving DecidableEq

/-- Value stored for a column in a `DictReader` row dict: either an actual
cell string, or Python `None` when the row was too short (`restval`). -/
inductive Cell where
  | val (s : String)
  | absent
deriving DecidableEq

/-- A parsed CSV file: header plus data rows (lists of cell strings). -/
structure Csv where
  header : List String
  rows : List (List String)
deriving DecidableEq

/-- The 15 required columns of the Row Validator (list `REQ` in
`validate_products_csv.py`). -/
def REQ : List String :=
  ["sku", "name", "aliases", "category", "skin_types", "key_ingredients", "claims",
   "fragrance_free", "oil_based", "condom_compatible", "size_ml", "price",
   "usage", "contraindications", "notes"]

/-- The three boolean-flag columns checked in the per-row loop. -/
def boolCols : List String :=
  ["fragrance_free", "oil_based", "condom_compatible"]

/-- The five optional columns of the Column Enricher (list `need` in
`add_missing_columns.py`). -/
def need : List String :=
  ["aliases", "skin_types", "oil_based", "condom_compatible", "notes"]

/-- Index of the last occurrence of `c` in `hdr`, if any.  `dict(zip(hdr, cells))`
keeps the value at the last occurrence of a duplicated key. -/
def lastIdxOf : List String → String → Option Nat
  | [], _ => Option.none
  | h :: t, c =>
    match lastIdxOf t c with
    | some i => some (i + 1)
    | Option.none => if h = c then some 0 else Option.none

/-- The `DictReader` row dict: value of key `c` for a row `cells` under header
`hdr`.  `Option.none` means the key is absent from the dict (column not in the
header); `some Cell.absent` models the Python value `None` given to header
columns beyond the row's length (`restval`). -/
def dictGet (hdr cells : List String) (c : String) : Option Cell :=
  match lastIdxOf hdr c with
  | Option.none => Option.none
  | some i => if h : i < cells.length then some (Cell.val (cells.get ⟨i, h⟩)) else some Cell.absent

/-- Python `str(...)` of a dict value: a string is itself, `None` prints as
the four characters `None`. -/
def cellStr : Cell → String
  | Cell.val s => s
  | Cell.absent => "None"

/-- `str(row.get(c, dflt))` where `dflt` is already a string. -/
def getStr (hdr cells : List String) (c dflt : String) : String :=
  match dictGet hdr cells c with
  | some cl => cellStr cl
  | Option.none => dflt

/-- Whitespace for Python `str.strip()` (ASCII: space, tab, LF, VT, FF, CR). -/
def isPySpace (c : Char) : Bool :=
  c.toNat = 32 ∨ c.toNat = 9 ∨ c.toNat = 10 ∨ c.toNat = 11 ∨ c.toNat = 12 ∨ c.toNat = 13

/-- Python `str.strip()`: drop leading and trailing whitespace. -/
def pyStrip (s : String) : String :=
  String.mk (((s.data.dropWhile isPySpace).reverse.dropWhile isPySpace).reverse)

/-- Python `str.lower()` (ASCII range). -/
def pyLower (s : String) : String :=
  String.mk (s.data.map Char.toLower)

/-- `.strip().lower()` applied to a string. -/
def pyNorm (s : String) : String := pyLower (pyStrip s)

/-- `str(row.get(c, "")).strip().lower()` — the normalisation used by the
boolean-flag and cross-field checks. -/
def normOf (hdr cells : List String) (c : String) : String :=
  pyNorm (getStr hdr cells c "")

/-- The value interpolated for `row.get(c)` in the error f-string: the raw
cell string, or `None` rendered as text when the cell is missing. -/
def rawOf (hdr cells : List String) (c : String) : String :=
  getStr hdr cells c "None"

/-- A single-quote character as a string (the quote used in the error
message format). -/
def squo : String := String.singleton (Char.ofNat 39)

/-- The boolean-flag error message for column `b` with raw value `raw`. -/
def boolErrMsg (b raw : String) : String :=
  b ++ "=" ++ squo ++ raw ++ squo ++ " not true/false"

/-- The fixed cross-field error message. -/
def crossMsg : String := "oil_based=true must imply condom_compatible=false"

/-- The error list `errs` the validator accumulates for one data row
(lines 24–34 of `validate_products_csv.py`), in the order the script
appends them: the three boolean-flag checks, then the cross-field rule,
then the `sku`/`name` emptiness checks. -/
def validateRow (hdr cells : List String) : List String :=
  (boolCols.filterMap fun b =>
    if normOf hdr cells b = "true" ∨ normOf hdr cells b = "false" then Option.none
    else some (boolErrMsg b (rawOf hdr cells b)))
  ++ (if normOf hdr cells "oil_based" = "true" ∧ ¬ normOf hdr cells "condom_compatible" = "false"
      then [crossMsg] else [])
  ++ (if pyStrip (getStr hdr cells "sku" "") = "" then ["sku empty"] else [])
  ++ (if pyStrip (getStr hdr cells "name" "") = "" then ["name empty"] else [])

/-- The SKU shown in the report prefix: `row.get('sku', '?')` rendered by the
f-string — the cell string itself when the key exists (text `None` when the
cell is missing), and `?` only when the header has no `sku` column at all. -/
def skuDisplay (hdr cells : List String) : String :=
  getStr hdr cells "sku" "?"

/-- The per-row report line printed when `errs` is non-empty (line 37). -/
def reportLine (i : Nat) (hdr cells : List String) : String :=
  "Row " ++ toString i ++ " (" ++ skuDisplay hdr cells ++ "): "
    ++ String.intercalate "; " (validateRow hdr cells)

/-- The whole Row Validator process: given the input path (for the message
text) and the parsed file (`Option.none` when the file does not exist),
returns the exit status and the printed lines with their channels.
Mirrors `validate_products_csv.py` end to end: file-existence check,
schema check, per-row loop with `enumerate(r, start=2)`, and the final
summary print. -/
def runValidator (path : String) (input : Option Csv) : Nat × List (Chan × String) :=
  match input with
  | Option.none => (1, [(Chan.out, "File not found: " ++ path)])
  | some csv =>
    let missing := REQ.filter fun c => ¬ c ∈ csv.header
    if missing.isEmpty then
      let badRows := (csv.rows.enumFrom 2).filter fun p => ¬ (validateRow csv.header p.2).isEmpty
      let reports := badRows.map fun p => (Chan.out, reportLine p.1 csv.header p.2)
      let summary :=
        if badRows.length = 0 then "OK" else toString badRows.length ++ " row(s) need fixes"
      (0, reports ++ [(Chan.out, summary)])
    else
      (1, [(Chan.out, "Missing columns: " ++ String.intercalate ", " missing)])

/-- The row dict after the enricher's `row.setdefault(k, "")` loop: keys
already present keep their value; each `need` key absent from the header is
added with the empty string. -/
def enrichRecord (hdr cells : List String) (f : String) : Option Cell :=
  match dictGet hdr cells f with
  | some c => some c
  | Option.none => if f ∈ need then some (Cell.val "") else Option.none

/-- The string `DictWriter` writes for a field: the stored string, with the
Python value `None` (and an absent key, via `restval`) serialised as the
empty string. -/
def outCellStr : Option Cell → String
  | some (Cell.val v) => v
  | some Cell.absent => ""
  | Option.none => ""

/-- The enricher's output header: original columns in order, then the
`need` columns not already present, in `need` order (lines 13–15). -/
def enrichHeader (hdr : List String) : List String :=
  hdr ++ need.filter fun k => ¬ k ∈ hdr

/-- The Column Enricher's output file contents.  `Option.none` models the
uncaught `ValueError` `DictWriter` raises when some row dict carries the
`restkey` key `None`, i.e. when a data row has more cells than the header
(`extrasaction` defaults to `raise`); the process then dies without having
written a complete output file. -/
def enrich (csv : Csv) : Option Csv :=
  if csv.rows.any (fun cells => csv.header.length < cells.length) then Option.none
  else some
    ⟨enrichHeader csv.header,
     csv.rows.map fun cells =>
       (enrichHeader csv.header).map fun f => outCellStr (enrichRecord csv.header cells f)⟩

/-- The whole Column Enricher process: exit status, printed lines with their
channels, and the completed output file when one is produced.  A missing
input file raises `SystemExit` (message on standard error, status 1); a
successful run prints the `Wrote ...` line on standard output. -/
def runEnricher (inPath outPath : String) (input : Option Csv) :
    Nat × List (Chan × String) × Option Csv :=
  match input with
  | Option.none => (1, [(Chan.err, "File not found: " ++ inPath)], Option.none)
  | some csv =>
    match enrich csv with
    | Option.none =>
      (1, [(Chan.err, "ValueError: dict contains fields not in fieldnames: None")], Option.none)
    | some out =>
      (0, [(Chan.out, "Wrote " ++ outPath ++ " with columns: " ++ String.intercalate ", " out.header)],
        some out)

/-! ## Helper lemmas -/

/-- Two strings differing at some probed character are different. -/
theorem strNe (g : String → Option Char) (a b : Option Char) (s t : String)
    (hs : g s = a) (ht : g t = b) (hab : ¬ a = b) : ¬ s = t :=
  fun e => hab (by rw [← hs, ← ht, e])

/-- Two strings with different first characters are different. -/
theorem strNeHead (a b : Char) (s t : String)
    (hs : List.head? (String.data s) = some a) (ht : List.head? (String.data t) = some b)
    (hab : ¬ a = b) : ¬ s = t :=
  strNe (fun u => List.head? (String.data u)) (some a) (some b) s t hs ht
    (fun e => hab (Option.some.inj e))

/-- A known dict value determines `getStr` regardless of the default. -/
theorem getStr_of_dictGet {hdr cells : List String} {c : String} {v : Cell}
    (h : dictGet hdr cells c = some v) (d : String) : getStr hdr cells c d = cellStr v := by
  simp [getStr, h]

/-- Membership in a conditional singleton list. -/
theorem mem_iteSingleton {c : Prop} [Decidable c] {x a : String} :
    a ∈ (if c then [x] else ([] : List String)) ↔ c ∧ a = x := by
  by_cases h : c <;> simp [h]

/-- Unfolding of the validator run when the schema check passes. -/
theorem runValidator_schema_ok (path : String) (csv : Csv)
    (h : (REQ.filter fun c => ¬ c ∈ csv.header).isEmpty = true) :
    runValidator path (some csv) =
      (0, (((csv.rows.enumFrom 2).filter fun p => ¬ (validateRow csv.header p.2).isEmpty).map
          fun p => (Chan.out, reportLine p.1 csv.header p.2))
        ++ [(Chan.out,
          if (((csv.rows.enumFrom 2).filter fun p =>
              ¬ (validateRow csv.header p.2).isEmpty)).length = 0
          then "OK"
          else toString (((csv.rows.enumFrom 2).filter fun p =>
              ¬ (validateRow csv.header p.2).isEmpty)).length ++ " row(s) need fixes")]) := by
  simp only [runValidator]
  rw [if_pos h]

/-- Unfolding of the validator run when the schema check fails. -/
theorem runValidator_schema_fail (path : String) (csv : Csv)
    (h : ∃ c, c ∈ REQ ∧ ¬ c ∈ csv.header) :
    runValidator path (some csv) =
      (1, [(Chan.out, "Missing columns: "
        ++ String.intercalate ", " (REQ.filter fun c => ¬ c ∈ csv.header))]) := by
  have hne : (REQ.filter fun c => ¬ c ∈ csv.header) ≠ [] := by
    rcases h with ⟨c, h1, h2⟩
    intro he
    rw [List.filter_eq_nil_iff] at he
    exact (he c h1) (by simpa using h2)
  have hie : (REQ.filter fun c => ¬ c ∈ csv.header).isEmpty = false :=
    List.isEmpty_eq_false.2 hne
  simp only [runValidator]
  rw [hie]
  simp

/-- A complete schema makes the missing-columns filter empty. -/
theorem filter_missing_empty (csv : Csv) (h : ∀ c, c ∈ REQ → c ∈ csv.header) :
    (REQ.filter fun c => ¬ c ∈ csv.header).isEmpty = true := by
  rw [List.isEmpty_iff]
  rw [List.filter_eq_nil_iff]
  intro a ha
  simpa using h a ha

/-- A failed schema check exhibits a missing required column. -/
theorem missing_exists_of_not_isEmpty (csv : Csv)
    (h : ¬ (REQ.filter fun c => ¬ c ∈ csv.header).isEmpty = true) :
    ∃ c, c ∈ REQ ∧ ¬ c ∈ csv.header := by
  rcases List.exists_mem_of_ne_nil _
      (fun he => h (by rw [List.isEmpty_iff]; exact he)) with ⟨c, hc⟩
  exact ⟨c, (List.mem_filter.1 hc).1, by simpa using (List.mem_filter.1 hc).2⟩

/-! ## Claims -/

/-- C2: an input whose header lacks at least one of the 15 required columns
makes the validator print exactly one `Missing columns:` line listing the
missing names in `REQ` order, and exit with status 1 producing no per-row
output at all. -/
theorem C2_missing_columns (path : String) (csv : Csv)
    (h : ∃ c, c ∈ REQ ∧ ¬ c ∈ csv.header) :
    runValidator path (some csv) =
      (1, [(Chan.out, "Missing columns: "
        ++ String.intercalate ", " (REQ.filter fun c => ¬ c ∈ csv.header))]) :=
  runValidator_schema_fail path csv h

/-- Witness for C2 at the spec scenario header `sku,name`. -/
theorem C2_missing_columns_witness :
    runValidator "products.csv" (some ⟨["sku", "name"], []⟩) =
      (1, [(Chan.out, "Missing columns: "
        ++ String.intercalate ", "
          (REQ.filter fun c => ¬ c ∈ (["sku", "name"] : List String)))]) :=
  C2_missing_columns "products.csv" ⟨["sku", "name"], []⟩ ⟨"aliases", by decide, by decide⟩

/-- C3: the validator exits with status 0 exactly when the input file exists
and its header contains all 15 required columns; per-row errors never change
the exit status. -/
theorem C3_exit_status (path : String) (input : Option Csv) :
    (runValidator path input).1 = 0 ↔
      ∃ csv, input = some csv ∧ ∀ c, c ∈ REQ → c ∈ csv.header := by
  cases input with
  | none => simp [runValidator]
  | some csv =>
    by_cases h : (REQ.filter fun c => ¬ c ∈ csv.header).isEmpty = true
    · rw [runValidator_schema_ok path csv h]
      constructor
      · intro _
        refine ⟨csv, rfl, ?_⟩
        intro c hc
        by_contra hcn
        have hm : c ∈ REQ.filter fun c => ¬ c ∈ csv.header :=
          List.mem_filter.2 ⟨hc, by simpa using hcn⟩
        rw [List.isEmpty_iff.1 h] at hm
        exact absurd hm (List.not_mem_nil c)
      · intro _
        rfl
    · have hex : ∃ c, c ∈ REQ ∧ ¬ c ∈ csv.header := missing_exists_of_not_isEmpty csv h
      rw [runValidator_schema_fail path csv hex]
      constructor
      · intro h0
        simp at h0
      · rintro ⟨csv2, he, hall⟩
        have he2 : csv = csv2 := by injection he
        rw [he2] at h
        exact absurd (filter_missing_empty csv2 hall) h

/-- Witness for C3: a schema-complete empty file exits 0. -/
theorem C3_exit_status_witness :
    (runValidator "products.csv" (some ⟨REQ, [["x"]]⟩)).1 = 0 :=
  (C3_exit_status "products.csv" (some ⟨REQ, [["x"]]⟩)).mpr ⟨⟨REQ, [["x"]]⟩, rfl, by decide⟩

/-- The scenario row of C1: `sku` empty, `name` `Foo`, all boolean flags
valid, under the canonical `REQ` header. -/
def c1row : List String :=
  ["", "Foo", "", "", "", "", "", "true", "false", "true", "", "", "", "", ""]

/-- C1 (amended): every data row with at least one validation error yields
exactly one report line, `Row i (SKU): errors joined by a semicolon-space`,
where the displayed SKU is the raw dict value verbatim — the empty string
when `sku` is empty, the text `None` when the cell is missing — and `?`
would appear only if the `sku` key were absent from the record, which cannot
happen once the schema check has passed. -/
theorem C1_report_line (path : String) (csv : Csv)
    (h : ∀ c, c ∈ REQ → c ∈ csv.header) :
    ((runValidator path (some csv)).2 =
      (((csv.rows.enumFrom 2).filter fun p => ¬ (validateRow csv.header p.2).isEmpty).map
        fun p => (Chan.out, reportLine p.1 csv.header p.2))
      ++ [(Chan.out,
        if (((csv.rows.enumFrom 2).filter fun p =>
            ¬ (validateRow csv.header p.2).isEmpty)).length = 0
        then "OK"
        else toString (((csv.rows.enumFrom 2).filter fun p =>
            ¬ (validateRow csv.header p.2).isEmpty)).length ++ " row(s) need fixes")])
    ∧ (∀ i cells, reportLine i csv.header cells =
        "Row " ++ toString i ++ " (" ++ skuDisplay csv.header cells ++ "): "
          ++ String.intercalate "; " (validateRow csv.header cells))
    ∧ (∀ cells v, dictGet csv.header cells "sku" = some v →
        skuDisplay csv.header cells = cellStr v) := by
  refine ⟨?_, ?_, ?_⟩
  · rw [runValidator_schema_ok path csv (filter_missing_empty csv h)]
  · intro i cells
    rfl
  · intro cells v hv
    exact getStr_of_dictGet hv "?"

/-- Witness for C1: in the scenario row the displayed SKU is the stored
empty string. -/
theorem C1_report_line_witness :
    skuDisplay REQ c1row = cellStr (Cell.val "") :=
  (C1_report_line "products.csv" ⟨REQ, [c1row]⟩ (by decide)).2.2 c1row (Cell.val "")
    (by decide)

/-- Counterexample to C1 as stated: for the row with `sku` empty and
`name=Foo` the single error is `sku empty`, but the report prefix shows the
empty string, not `?`. -/
theorem C1_counterexample :
    validateRow REQ c1row = ["sku empty"]
    ∧ reportLine 2 REQ c1row = "Row 2 (): sku empty"
    ∧ ¬ reportLine 2 REQ c1row = "Row 2 (?): sku empty" :=
  ⟨by decide, by decide, by decide⟩

/-- C4: whenever `oil_based` normalises to `true` and `condom_compatible`
does not normalise to `false`, the fixed cross-field message is among the
row's errors; and when `condom_compatible` is additionally not a valid
boolean, its boolean-flag error is present as well. -/
theorem C4_cross_field (hdr cells : List String)
    (h1 : normOf hdr cells "oil_based" = "true")
    (h2 : ¬ normOf hdr cells "condom_compatible" = "false") :
    crossMsg ∈ validateRow hdr cells
    ∧ (¬ (normOf hdr cells "condom_compatible" = "true"
          ∨ normOf hdr cells "condom_compatible" = "false") →
        boolErrMsg "condom_compatible" (rawOf hdr cells "condom_compatible")
          ∈ validateRow hdr cells) := by
  constructor
  · refine List.mem_append.2 (Or.inl ?_)
    refine List.mem_append.2 (Or.inl ?_)
    refine List.mem_append.2 (Or.inr ?_)
    rw [mem_iteSingleton]
    exact ⟨⟨h1, h2⟩, rfl⟩
  · intro hinv
    refine List.mem_append.2 (Or.inl ?_)
    refine List.mem_append.2 (Or.inl ?_)
    refine List.mem_append.2 (Or.inl ?_)
    exact List.mem_filterMap.2 ⟨"condom_compatible", by decide, by rw [if_neg hinv]⟩

/-- Witness for C4 on a row with `oil_based=true`, `condom_compatible=maybe`:
both the cross-field error and the boolean-flag error appear. -/
theorem C4_cross_field_witness :
    crossMsg ∈ validateRow REQ
        ["S1", "Prod", "", "", "", "", "", "true", "true", "maybe", "", "", "", "", ""]
    ∧ boolErrMsg "condom_compatible"
        (rawOf REQ ["S1", "Prod", "", "", "", "", "", "true", "true", "maybe", "", "", "", "", ""]
          "condom_compatible")
      ∈ validateRow REQ
        ["S1", "Prod", "", "", "", "", "", "true", "true", "maybe", "", "", "", "", ""] :=
  ⟨(C4_cross_field REQ
      ["S1", "Prod", "", "", "", "", "", "true", "true", "maybe", "", "", "", "", ""]
      (by decide) (by decide)).1,
   (C4_cross_field REQ
      ["S1", "Prod", "", "", "", "", "", "true", "true", "maybe", "", "", "", "", ""]
      (by decide) (by decide)).2 (by decide)⟩

/-- C5: for each of the three boolean-flag columns, the row's error list
contains the message naming that column and its raw value exactly when the
trimmed, lowercased value is neither `true` nor `false`. -/
theorem C5_bool_flag_iff (hdr cells : List String) (b : String) (hb : b ∈ boolCols) :
    boolErrMsg b (rawOf hdr cells b) ∈ validateRow hdr cells ↔
      ¬ (normOf hdr cells b = "true" ∨ normOf hdr cells b = "false") := by
  have hb3 : b = "fragrance_free" ∨ b = "oil_based" ∨ b = "condom_compatible" := by
    simpa [boolCols] using hb
  constructor
  · intro hmem
    rcases List.mem_append.1 hmem with h123 | h4
    · rcases List.mem_append.1 h123 with h12 | h3
      · rcases List.mem_append.1 h12 with h1 | h2
        · rcases List.mem_filterMap.1 h1 with ⟨b2, hb2, heq⟩
          by_cases hc : normOf hdr cells b2 = "true" ∨ normOf hdr cells b2 = "false"
          · rw [if_pos hc] at heq
            exact absurd heq (by simp)
          · rw [if_neg hc] at heq
            have heq2 := Option.some.inj heq
            have hb23 : b2 = "fragrance_free" ∨ b2 = "oil_based" ∨ b2 = "condom_compatible" := by
              simpa [boolCols] using hb2
            rcases hb3 with rfl | rfl | rfl <;> rcases hb23 with rfl | rfl | rfl <;>
              first
                | exact hc
                | exact absurd heq2 (strNeHead _ _ _ _ rfl rfl (by decide))
        · rw [mem_iteSingleton] at h2
          rcases hb3 with rfl | rfl | rfl
          · exact absurd h2.2 (strNeHead (Char.ofNat 102) (Char.ofNat 111) _ _ rfl rfl (by decide))
          · exact absurd h2.2
              (strNe (fun u => List.get? (String.data u) 10)
                (some (Char.ofNat 39)) (some (Char.ofNat 116)) _ _ rfl rfl (by decide))
          · exact absurd h2.2 (strNeHead (Char.ofNat 99) (Char.ofNat 111) _ _ rfl rfl (by decide))
      · rw [mem_iteSingleton] at h3
        rcases hb3 with rfl | rfl | rfl <;>
          exact absurd h3.2 (strNeHead _ (Char.ofNat 115) _ _ rfl rfl (by decide))
    · rw [mem_iteSingleton] at h4
      rcases hb3 with rfl | rfl | rfl <;>
        exact absurd h4.2 (strNeHead _ (Char.ofNat 110) _ _ rfl rfl (by decide))
  · intro hinv
    refine List.mem_append.2 (Or.inl ?_)
    refine List.mem_append.2 (Or.inl ?_)
    refine List.mem_append.2 (Or.inl ?_)
    exact List.mem_filterMap.2 ⟨b, hb, by rw [if_neg hinv]⟩

/-- Witness for C5: `fragrance_free=x` is flagged with its raw value. -/
theorem C5_bool_flag_iff_witness :
    boolErrMsg "fragrance_free"
        (rawOf REQ ["S1", "Prod", "", "", "", "", "", "x", "false", "true", "", "", "", "", ""]
          "fragrance_free")
      ∈ validateRow REQ
        ["S1", "Prod", "", "", "", "", "", "x", "false", "true", "", "", "", "", ""] :=
  (C5_bool_flag_iff REQ ["S1", "Prod", "", "", "", "", "", "x", "false", "true", "", "", "", "", ""]
    "fragrance_free" (by decide)).mpr (by decide)

/-- C6 (amended): every fatal condition exits with a non-zero status, and
recoverable per-row errors go to standard output; but only the Column
Enricher's missing-input message goes to standard error — the Row Validator
prints all of its lines, its two fatal messages included, on standard
output. -/
theorem C6_streams (path inPath outPath : String) (csv : Csv) :
    ((runValidator path Option.none).1 = 1
      ∧ ∀ p, p ∈ (runValidator path Option.none).2 → p.1 = Chan.out)
    ∧ ((runEnricher inPath outPath Option.none).1 = 1
      ∧ ∀ p, p ∈ (runEnricher inPath outPath Option.none).2.1 → p.1 = Chan.err)
    ∧ ((∃ c, c ∈ REQ ∧ ¬ c ∈ csv.header) → (runValidator path (some csv)).1 = 1)
    ∧ (∀ p, p ∈ (runValidator path (some csv)).2 → p.1 = Chan.out) := by
  refine ⟨⟨rfl, ?_⟩, ⟨rfl, ?_⟩, ?_, ?_⟩
  · intro p hp
    have hp2 := List.mem_singleton.1 hp
    subst hp2
    rfl
  · intro p hp
    have hp2 := List.mem_singleton.1 hp
    subst hp2
    rfl
  · intro hex
    rw [runValidator_schema_fail path csv hex]
  · intro p hp
    by_cases hs : (REQ.filter fun c => ¬ c ∈ csv.header).isEmpty = true
    · rw [runValidator_schema_ok path csv hs] at hp
      rcases List.mem_append.1 hp with h1 | h2
      · rcases List.mem_map.1 h1 with ⟨q, _, hq⟩
        subst hq
        rfl
      · have hp2 := List.mem_singleton.1 h2
        subst hp2
        rfl
    · rw [runValidator_schema_fail path csv (missing_exists_of_not_isEmpty csv hs)] at hp
      have hp2 := List.mem_singleton.1 hp
      subst hp2
      rfl

/-- Witness for C6: both tools exit 1 on a missing input file, and the
validator exits 1 on a failed schema check. -/
theorem C6_streams_witness :
    (runValidator "products.csv" Option.none).1 = 1
    ∧ (runEnricher "products.csv" "products_enriched.csv" Option.none).1 = 1
    ∧ (runValidator "products.csv" (some ⟨["sku"], []⟩)).1 = 1 :=
  ⟨(C6_streams "products.csv" "products.csv" "products_enriched.csv" ⟨["sku"], []⟩).1.1,
   (C6_streams "products.csv" "products.csv" "products_enriched.csv" ⟨["sku"], []⟩).2.1.1,
   (C6_streams "products.csv" "products.csv" "products_enriched.csv" ⟨["sku"], []⟩).2.2.1
     ⟨"name", by decide, by decide⟩⟩

/-- Counterexample to C6 as stated: the validator's file-not-found message
is printed on standard output, not on the error stream. -/
theorem C6_counterexample :
    runValidator "products.csv" Option.none =
      (1, [(Chan.out, "File not found: products.csv")])
    ∧ ¬ Chan.out = Chan.err :=
  ⟨by decide, by decide⟩

/-- C9 (amended): with a complete header, a data row shorter than the header
never makes the validator raise; each missing boolean cell reads as the
Python value `None`, whose string form `None` fails the boolean check and is
reported with raw value `None`; but a missing `sku` or `name` cell is NOT
flagged empty, because the string `None` is non-blank after stripping. -/
theorem C9_short_rows (hdr cells : List String) :
    (∀ b, b ∈ boolCols → dictGet hdr cells b = some Cell.absent →
        boolErrMsg b "None" ∈ validateRow hdr cells)
    ∧ (dictGet hdr cells "sku" = some Cell.absent →
        ¬ "sku empty" ∈ validateRow hdr cells)
    ∧ (dictGet hdr cells "name" = some Cell.absent →
        ¬ "name empty" ∈ validateRow hdr cells) := by
  refine ⟨?_, ?_, ?_⟩
  · intro b hbm habs
    have hraw : rawOf hdr cells b = "None" := getStr_of_dictGet habs "None"
    have hnorm : normOf hdr cells b = "none" := by
      rw [normOf, getStr_of_dictGet habs ""]
      rfl
    refine List.mem_append.2 (Or.inl ?_)
    refine List.mem_append.2 (Or.inl ?_)
    refine List.mem_append.2 (Or.inl ?_)
    refine List.mem_filterMap.2 ⟨b, hbm, ?_⟩
    rw [hnorm, hraw, if_neg (by decide)]
  · intro habs hmem
    have hsku : getStr hdr cells "sku" "" = "None" := getStr_of_dictGet habs ""
    rcases List.mem_append.1 hmem with h123 | h4
    · rcases List.mem_append.1 h123 with h12 | h3
      · rcases List.mem_append.1 h12 with h1 | h2
        · rcases List.mem_filterMap.1 h1 with ⟨b2, hb2, heq⟩
          by_cases hc : normOf hdr cells b2 = "true" ∨ normOf hdr cells b2 = "false"
          · rw [if_pos hc] at heq
            exact absurd heq (by simp)
          · rw [if_neg hc] at heq
            have heq2 := Option.some.inj heq
            have hb23 : b2 = "fragrance_free" ∨ b2 = "oil_based" ∨ b2 = "condom_compatible" := by
              simpa [boolCols] using hb2
            rcases hb23 with rfl | rfl | rfl <;>
              exact absurd heq2 (strNeHead _ (Char.ofNat 115) _ _ rfl rfl (by decide))
        · rw [mem_iteSingleton] at h2
          exact absurd h2.2
            (strNeHead (Char.ofNat 115) (Char.ofNat 111) _ _ rfl rfl (by decide))
      · rcases (mem_iteSingleton.1 h3) with ⟨hcond, _⟩
        rw [hsku] at hcond
        exact absurd hcond (by decide)
    · rw [mem_iteSingleton] at h4
      exact absurd h4.2 (by decide)
  · intro habs hmem
    have hname : getStr hdr cells "name" "" = "None" := getStr_of_dictGet habs ""
    rcases List.mem_append.1 hmem with h123 | h4
    · rcases List.mem_append.1 h123 with h12 | h3
      · rcases List.mem_append.1 h12 with h1 | h2
        · rcases List.mem_filterMap.1 h1 with ⟨b2, hb2, heq⟩
          by_cases hc : normOf hdr cells b2 = "true" ∨ normOf hdr cells b2 = "false"
          · rw [if_pos hc] at heq
            exact absurd heq (by simp)
          · rw [if_neg hc] at heq
            have heq2 := Option.some.inj heq
            have hb23 : b2 = "fragrance_free" ∨ b2 = "oil_based" ∨ b2 = "condom_compatible" := by
              simpa [boolCols] using hb2
            rcases hb23 with rfl | rfl | rfl <;>
              exact absurd heq2 (strNeHead _ (Char.ofNat 110) _ _ rfl rfl (by decide))
        · rw [mem_iteSingleton] at h2
          exact absurd h2.2
            (strNeHead (Char.ofNat 110) (Char.ofNat 111) _ _ rfl rfl (by decide))
      · rw [mem_iteSingleton] at h3
        exact absurd h3.2 (by decide)
    · rcases (mem_iteSingleton.1 h4) with ⟨hcond, _⟩
      rw [hname] at hcond
      exact absurd hcond (by decide)

/-- Witness for C9: under the `REQ` header, the one-cell row `S` gets the
boolean error for the missing `oil_based` cell with raw value `None`, and no
`name empty` error despite the missing `name` cell. -/
theorem C9_short_rows_witness :
    boolErrMsg "oil_based" "None" ∈ validateRow REQ ["S"]
    ∧ ¬ "name empty" ∈ validateRow REQ ["S"] :=
  ⟨(C9_short_rows REQ ["S"]).1 "oil_based" (by decide) (by decide),
   (C9_short_rows REQ ["S"]).2.2 (by decide)⟩

/-- The header used by the C9 counterexample: all 15 required columns with
`sku` moved to the last position. -/
def c9hdr : List String :=
  ["name", "aliases", "category", "skin_types", "key_ingredients", "claims",
   "fragrance_free", "oil_based", "condom_compatible", "size_ml", "price",
   "usage", "contraindications", "notes", "sku"]

/-- Counterexample to C9 as stated: a row whose `sku` cell is missing does
NOT count as having an empty `sku` — no `sku empty` error is produced,
because `str(None)` is the non-blank string `None`. -/
theorem C9_counterexample :
    (∀ c, c ∈ REQ → c ∈ c9hdr)
    ∧ dictGet c9hdr ["Foo"] "sku" = some Cell.absent
    ∧ ¬ "sku empty" ∈ validateRow c9hdr ["Foo"] :=
  ⟨by decide, by decide, by decide⟩

/-- A column not in the header has no last index. -/
theorem lastIdxOf_of_not_mem (l : List String) (c : String) (h : ¬ c ∈ l) :
    lastIdxOf l c = Option.none := by
  induction l with
  | nil => rfl
  | cons a t ih =>
    have h1 : ¬ c ∈ t := fun hm => h (List.mem_cons_of_mem a hm)
    have h2 : ¬ a = c := fun e => h (e ▸ List.mem_cons_self a t)
    simp [lastIdxOf, ih h1, h2]

/-- In a duplicate-free header the last index of the `i`-th column is `i`. -/
theorem lastIdxOf_get (l : List String) (hnd : l.Nodup) (i : Nat) (h : i < l.length) :
    lastIdxOf l l[i] = some i := by
  induction l generalizing i with
  | nil => exact absurd h (by simp)
  | cons a t ih =>
    rcases List.nodup_cons.1 hnd with ⟨ha, ht⟩
    cases i with
    | zero =>
      have hz : (a :: t)[0] = a := rfl
      rw [hz]
      simp [lastIdxOf, lastIdxOf_of_not_mem t a ha]
    | succ j =>
      have hj : j < t.length := Nat.lt_of_succ_lt_succ h
      have hget : (a :: t)[j + 1] = t[j] := rfl
      rw [hget]
      simp [lastIdxOf, ih ht j hj]

/-- In a rectangular, duplicate-free row the dict lookup of the `i`-th column
is the `i`-th cell. -/
theorem dictGet_get (hdr cells : List String) (hnd : hdr.Nodup) (i : Nat)
    (hi : i < hdr.length) (hic : i < cells.length) :
    dictGet hdr cells hdr[i] = some (Cell.val cells[i]) := by
  simp [dictGet, lastIdxOf_get hdr hnd i hi, hic]

/-- A pointwise-identity map leaves a list unchanged. -/
theorem map_eq_self_of_mem {α : Type} (l : List α) (f : α → α)
    (h : ∀ a, a ∈ l → f a = a) : l.map f = l := by
  induction l with
  | nil => rfl
  | cons a t ih =>
    simp [h a (List.mem_cons_self a t), ih fun b hb => h b (List.mem_cons_of_mem a hb)]

/-- C7 (amended): for every input whose rows are no longer than the header,
the enricher writes a complete output whose header is the original columns
followed by the absent optional columns in the fixed order, with one output
row per input row in input order; an input row longer than the header
instead makes `DictWriter` raise, aborting the run. -/
theorem C7_enrich_layout (csv : Csv)
    (h : ∀ cells, cells ∈ csv.rows → cells.length ≤ csv.header.length) :
    ∃ out, enrich csv = some out
      ∧ out.header = csv.header ++ need.filter (fun k => ¬ k ∈ csv.header)
      ∧ out.rows = csv.rows.map (fun cells =>
          out.header.map fun f => outCellStr (enrichRecord csv.header cells f))
      ∧ out.rows.length = csv.rows.length := by
  have hany : csv.rows.any (fun cells => csv.header.length < cells.length) = false := by
    rw [← Bool.not_eq_true]
    intro htrue
    rcases List.any_eq_true.1 htrue with ⟨x, hx, hlt⟩
    exact absurd (h x hx) (by simpa using hlt)
  refine ⟨⟨enrichHeader csv.header, csv.rows.map fun cells =>
      (enrichHeader csv.header).map fun f => outCellStr (enrichRecord csv.header cells f)⟩,
    ?_, rfl, rfl, by simp⟩
  simp [enrich, hany]

/-- Witness for C7 on a one-column, one-row input. -/
theorem C7_enrich_layout_witness :
    ∃ out, enrich ⟨["sku"], [["a"]]⟩ = some out
      ∧ out.header = ["sku"] ++ need.filter (fun k => ¬ k ∈ (["sku"] : List String))
      ∧ out.rows = ([["a"]] : List (List String)).map (fun cells =>
          out.header.map fun f => outCellStr (enrichRecord ["sku"] cells f))
      ∧ out.rows.length = ([["a"]] : List (List String)).length :=
  C7_enrich_layout ⟨["sku"], [["a"]]⟩ (by decide)

/-- Counterexample to C7 as stated: an input row with more cells than the
header makes the enricher raise instead of producing a header line plus one
line per input row — the run exits non-zero with no complete output. -/
theorem C7_counterexample :
    enrich ⟨["sku"], [["a", "b"]]⟩ = Option.none
    ∧ (runEnricher "products.csv" "products_enriched.csv"
        (some ⟨["sku"], [["a", "b"]]⟩)).2.2 = Option.none
    ∧ (runEnricher "products.csv" "products_enriched.csv"
        (some ⟨["sku"], [["a", "b"]]⟩)).1 = 1 :=
  ⟨by decide, by decide, by decide⟩

/-- C8 (amended): on a rectangular input (every row exactly as long as the
header) with duplicate-free columns that already include all five optional
columns, the enricher is the identity: it adds zero columns and reproduces
the header and every row value unchanged — though the file is still
rewritten. -/
theorem C8_enrich_idempotent (csv : Csv) (hnd : csv.header.Nodup)
    (hneed : ∀ k, k ∈ need → k ∈ csv.header)
    (hrect : ∀ cells, cells ∈ csv.rows → cells.length = csv.header.length) :
    enrich csv = some csv := by
  have hany : csv.rows.any (fun cells => csv.header.length < cells.length) = false := by
    rw [← Bool.not_eq_true]
    intro htrue
    rcases List.any_eq_true.1 htrue with ⟨x, hx, hlt⟩
    have hlt2 : csv.header.length < x.length := by simpa using hlt
    have hlen := hrect x hx
    omega
  have hhdr : enrichHeader csv.header = csv.header := by
    rw [enrichHeader]
    have hfil : need.filter (fun k => ¬ k ∈ csv.header) = [] :=
      List.filter_eq_nil_iff.2 fun k hk => by simpa using hneed k hk
    rw [hfil, List.append_nil]
  have hrow : ∀ cells, cells ∈ csv.rows →
      csv.header.map (fun f => outCellStr (enrichRecord csv.header cells f)) = cells := by
    intro cells hc
    apply List.ext_get
    · simp [hrect cells hc]
    · intro n h1 h2
      have hn : n < csv.header.length := by simpa using h1
      simp only [List.get_eq_getElem, List.getElem_map]
      have hd := dictGet_get csv.header cells hnd n hn h2
      simp [enrichRecord, hd, outCellStr]
  simp only [enrich, hany, hhdr]
  rw [map_eq_self_of_mem csv.rows _ hrow]
  simp

/-- Witness for C8 on a rectangular input holding exactly the five optional
columns. -/
theorem C8_enrich_idempotent_witness :
    enrich ⟨need, [["a", "b", "c", "d", "e"]]⟩ = some ⟨need, [["a", "b", "c", "d", "e"]]⟩ :=
  C8_enrich_idempotent ⟨need, [["a", "b", "c", "d", "e"]]⟩ (by decide) (by decide) (by decide)

/-- Counterexample to C8 as stated: an input that contains all five optional
columns but has a short row is not reproduced — the missing cells are
written out as empty strings, so the output rows differ from the input
rows. -/
theorem C8_counterexample :
    enrich ⟨need, [["a", "b"]]⟩ = some ⟨need, [["a", "b", "", "", ""]]⟩
    ∧ ¬ enrich ⟨need, [["a", "b"]]⟩ = some ⟨need, [["a", "b"]]⟩ :=
  ⟨by decide, by decide⟩

/-- C10: the enricher never changes the value of a column already present in
a record; it only inserts the empty-string default for the optional columns
the record lacks, and the written cell of a present column is its original
string. -/
theorem C10_frame_present_fields (hdr cells : List String) (f : String) :
    (∀ v, dictGet hdr cells f = some v → enrichRecord hdr cells f = some v)
    ∧ (dictGet hdr cells f = Option.none →
        enrichRecord hdr cells f = if f ∈ need then some (Cell.val "") else Option.none)
    ∧ (∀ s, dictGet hdr cells f = some (Cell.val s) →
        outCellStr (enrichRecord hdr cells f) = s) := by
  refine ⟨?_, ?_, ?_⟩
  · intro v h
    simp [enrichRecord, h]
  · intro h
    simp [enrichRecord, h]
  · intro s h
    simp [enrichRecord, h, outCellStr]

/-- Witness for C10 on a one-column record. -/
theorem C10_frame_present_fields_witness :
    enrichRecord ["sku"] ["X1"] "sku" = some (Cell.val "X1")
    ∧ outCellStr (enrichRecord ["sku"] ["X1"] "sku") = "X1" :=
  ⟨(C10_frame_present_fields ["sku"] ["X1"] "sku").1 (Cell.val "X1") (by decide),
   (C10_frame_present_fields ["sku"] ["X1"] "sku").2.2 "X1" (by decide)⟩
